import Mathlib

/-!
Verification development for the HDF5 dataset formatter of this repository
(qcodes/data/hdf5_format.py). The file shallowly embeds the formatter's
write path (HDF5Format.write and HDF5Format._create_dataarray_dset), its
read path (HDF5Format.read), the helpers _encode_to_utf8 and str_to_bool,
and HDF5Format.save_instrument_snapshot, and proves or refutes the spec
claims about them.

Modelling conventions:
* The only floating-point operations the formatter performs are np.isnan
  tests and copying cells, so a cell is an Option over the rationals:
  Option.none is the NaN sentinel, some q a populated value.
* Valid UTF-8 byte strings are identified with the text they encode
  (UTF-8 encoding is a bijection between text and valid byte sequences);
  python bytes.decode is the projection back to text.
* Fallible python code is embedded as Except PyErr.
-/

/-- A measurement cell: Option.none is the NaN sentinel, some q a populated
rational value. -/
abbrev Cell := Option ℚ

/-- The python exceptions surfaced by the embedded code paths. -/
inductive PyErr where
  | valueError (msg : String)
  | typeError
  | attributeError (attr : String)
  | keyError (key : String)
  | nameError (n : String)
  | indexError
deriving DecidableEq

/-- A valid UTF-8 byte string, identified with the text it encodes; `decode`
is python bytes.decode(). -/
structure Utf8Bytes where
  decode : String
deriving DecidableEq

/-- python text.encode (with the utf-8 codec) on a text value. -/
def encodeUtf8 (s : String) : Utf8Bytes := ⟨s⟩

/-- The python values that reach _encode_to_utf8 in this module: text,
sequences, integers and None. -/
inductive PyVal where
  | str (s : String)
  | list (elems : List PyVal)
  | int (n : Int)
  | none

/-- The result of _encode_to_utf8: a byte string or a list of byte strings. -/
inductive EncResult where
  | bytes (b : Utf8Bytes)
  | byteList (l : List Utf8Bytes)
deriving DecidableEq

/-- One element of the comprehension inside _encode_to_utf8
(hdf5_format.py line 234): s.encode succeeds on a text element and raises
AttributeError on any other element. -/
def encodeElem : PyVal → Except PyErr Utf8Bytes
  | PyVal.str s => Except.ok (encodeUtf8 s)
  | _ => Except.error (PyErr.attributeError "encode")

/-- Embeds _encode_to_utf8 (hdf5_format.py lines 225-235). Its elif
condition reads `type(s) == np.ndarray or list`, whose right operand makes
the condition true for every non-text value, so every non-text value is
iterated by the comprehension: a sequence is encoded element-wise, while a
non-iterable value (an integer or None) raises TypeError. -/
def encode_to_utf8 : PyVal → Except PyErr EncResult
  | PyVal.str s => Except.ok (EncResult.bytes (encodeUtf8 s))
  | PyVal.list l => (l.mapM encodeElem).map EncResult.byteList
  | PyVal.int _ => Except.error PyErr.typeError
  | PyVal.none => Except.error PyErr.typeError

/-- Embeds str_to_bool (hdf5_format.py lines 238-244), including the
verbatim text of its ValueError message. -/
def str_to_bool (s : String) : Except PyErr Bool :=
  if s = "True" then Except.ok true
  else if s = "False" then Except.ok false
  else Except.error (PyErr.valueError ("Cannot covert " ++ s ++ " to a bool"))

/-- python str() of a bool. -/
def pyBoolStr (b : Bool) : String := if b then "True" else "False"

/-- Claim C7 counterexample: the claim asserts that the encode helper maps
any non-text, non-sequence value (for example an integer or None) to the
UTF-8 encoding of its stringified form without raising; on the code,
_encode_to_utf8 applied to the integer 5 or to None raises TypeError
(iterating a non-iterable), and in particular does not return the encoding
of the text form of 5. -/
theorem claim_C7_cex :
    encode_to_utf8 (PyVal.int 5) = Except.error PyErr.typeError ∧
    encode_to_utf8 PyVal.none = Except.error PyErr.typeError ∧
    encode_to_utf8 (PyVal.int 5) ≠ Except.ok (EncResult.bytes (encodeUtf8 "5")) := by
  refine ⟨rfl, rfl, ?_⟩
  intro h
  exact Except.noConfusion h

/-- Claim C7 (amended): _encode_to_utf8 maps a text string to its UTF-8
byte encoding and a sequence of text strings to the element-wise sequence
of UTF-8 byte encodings, and UTF-8 decoding is the exact inverse on the
text case; but a non-iterable non-text value (an integer or None) raises
TypeError, because the sequence branch's condition
`type(s) == np.ndarray or list` is true for every non-text value. -/
theorem claim_C7_thm :
    (∀ s : String, encode_to_utf8 (PyVal.str s)
        = Except.ok (EncResult.bytes (encodeUtf8 s)) ∧ (encodeUtf8 s).decode = s) ∧
    (∀ l : List String, encode_to_utf8 (PyVal.list (l.map PyVal.str))
        = Except.ok (EncResult.byteList (l.map encodeUtf8))) ∧
    (∀ n : Int, encode_to_utf8 (PyVal.int n) = Except.error PyErr.typeError) ∧
    encode_to_utf8 PyVal.none = Except.error PyErr.typeError := by
  refine ⟨fun s => ⟨rfl, rfl⟩, ?_, fun n => rfl, rfl⟩
  intro l
  induction l with
  | nil => rfl
  | cons s t ih =>
    simp only [encode_to_utf8, List.map_cons, List.mapM_cons] at ih ⊢
    simp only [encodeElem, Except.map, bind, Except.bind, pure, Except.pure] at ih ⊢
    cases hm : List.mapM encodeElem (t.map PyVal.str) with
    | error e => rw [hm] at ih; cases ih
    | ok v => rw [hm] at ih; cases ih; rfl

/-- python repr of a text value, as used by str() on a list of strings when
the units attribute is written; escaping of quote and backslash characters
inside the text is elided (no unit string in this development contains
them). -/
def pyReprStr (s : String) : String := "\x27" ++ s ++ "\x27"

/-- python str() of a list of strings. -/
def pyStrOfStrList (l : List String) : String :=
  "[" ++ String.intercalate ", " (l.map pyReprStr) ++ "]"

/-- The metadata attributes written once at dataset creation by
_create_dataarray_dset: label, name, units and is_setpoint as UTF-8 byte
strings, and, for non-setpoint arrays only, the list of set-array ids. -/
structure DsetAttrs where
  label : Utf8Bytes
  name : Utf8Bytes
  units : Utf8Bytes
  is_setpoint : Utf8Bytes
  set_arrays : Option (List Utf8Bytes)
deriving DecidableEq

/-- An h5py dataset inside the Data Arrays group: a 2-D table of cells
(`rows`, each row of length `cols`), its fixed column count, the row bound
of its maxshape (Option.none meaning unlimited) and its attributes. -/
structure Dset where
  rows : List (List Cell)
  cols : Nat
  maxRows : Option Nat
  attrs : DsetAttrs
deriving DecidableEq

/-- An in-memory qcodes DataArray as HDF5Format.write consumes it:
identity and metadata fields, plus the 1-D cell payload. The code reads
array.set_arrays[i].array_id for non-setpoint arrays, so only the
referenced ids are modelled. -/
structure MemArray where
  array_id : String
  name : Option String
  label : Option String
  units : Option (List String)
  is_setpoint : Bool
  set_array_ids : List String
  data : List Cell
deriving DecidableEq

/-- The units substitution of HDF5Format._create_dataarray_dset
(hdf5_format.py lines 141-142): an absent units descriptor is replaced by
the one-element placeholder [""], used for shape determination. -/
def effUnits (a : MemArray) : List String :=
  match a.units with
  | some u => u
  | Option.none => [""]

/-- Embeds HDF5Format._create_dataarray_dset (hdf5_format.py lines
123-160): label and name fall back to array_id, the dataset is created
with shape (0, len(units)) and maxshape (None, len(units)), and the
attributes label, name, units, is_setpoint (str() of the python bool) and,
for non-setpoint arrays, set_arrays are written UTF-8-encoded. -/
def create_dataarray_dset (a : MemArray) : Dset :=
  { rows := [],
    cols := (effUnits a).length,
    maxRows := Option.none,
    attrs :=
      { label := encodeUtf8 (match a.label with
          | some l => l
          | Option.none => a.array_id),
        name := encodeUtf8 (match a.name with
          | some n => n
          | Option.none => a.array_id),
        units := encodeUtf8 (pyStrOfStrList (effUnits a)),
        is_setpoint := encodeUtf8 (pyBoolStr a.is_setpoint),
        set_arrays := if a.is_setpoint then Option.none
          else some (a.set_array_ids.map encodeUtf8) } }

/-- len(x[~np.isnan(x)]) (hdf5_format.py line 115): the number of non-NaN
cells anywhere in the array. -/
def nonNanCount (x : List Cell) : Nat := (x.filter (fun c => c.isSome)).length

/-- h5py Dataset.resize on the row dimension: shrinking truncates, growing
pads the new rows with the default fill value 0.0. -/
def resizeRows (rows : List (List Cell)) (n cols : Nat) : List (List Cell) :=
  if n ≤ rows.length then rows.take n
  else rows ++ List.replicate (n - rows.length) (List.replicate cols (some (0 : ℚ)))

/-- dset.resize(new_datasetshape) (hdf5_format.py line 118): resizing the
row dimension, which fails if the target exceeds a bounded maxshape. -/
def h5Resize (d : Dset) (n : Nat) : Except PyErr Dset :=
  match d.maxRows with
  | some m =>
      if n ≤ m then Except.ok { d with rows := resizeRows d.rows n d.cols }
      else Except.error (PyErr.valueError "resize exceeds maxshape")
  | Option.none => Except.ok { d with rows := resizeRows d.rows n d.cols }

/-- numpy ndarray.reshape of a flat cell list to shape (n, cols): defined
exactly when the element counts agree, in which case the flat list is cut
into n consecutive rows of cols cells. -/
def npReshapeRows (flat : List Cell) (n cols : Nat) : Option (List (List Cell)) :=
  if flat.length = n * cols then
    some ((List.range n).map (fun i => (flat.drop (i * cols)).take cols))
  else Option.none

/-- Embeds the per-array body of HDF5Format.write (hdf5_format.py lines
108-121): old_dlen is the stored row count, new_dlen is len(x[~isnan(x)]),
the dataset is resized to (new_dlen, cols), and the numpy slice
x[old_dlen:new_dlen] is reshaped to (new_dlen, cols) — raising ValueError
on a size mismatch — and then assigned to dset[old_dlen:new_dlen], which
requires the value's row count to equal the selection's row count. -/
def appendArray (d : Dset) (x : List Cell) : Except PyErr Dset :=
  match h5Resize d (nonNanCount x) with
  | Except.error er => Except.error er
  | Except.ok resized =>
      match npReshapeRows ((x.drop d.rows.length).take (nonNanCount x - d.rows.length))
          (nonNanCount x) d.cols with
      | Option.none => Except.error (PyErr.valueError "cannot reshape")
      | some reshaped =>
          if reshaped.length = nonNanCount x - d.rows.length then
            Except.ok { resized with rows := resized.rows.take d.rows.length ++ reshaped }
          else Except.error (PyErr.valueError "could not broadcast")

/-- First-match lookup in an association list (python dict / h5py group
indexing). -/
def assocGet {α : Type} : List (String × α) → String → Option α
  | [], _ => Option.none
  | p :: rest, k => if p.1 = k then some p.2 else assocGet rest k

/-- Replace the value stored under a key, keeping the entry order (python
mutation of an existing dict / group member). -/
def assocSet {α : Type} : List (String × α) → String → α → List (String × α)
  | [], _, _ => []
  | p :: rest, k, v => (if p.1 = k then (k, v) else p) :: assocSet rest k v

/-- One iteration of the write loop (hdf5_format.py lines 104-121):
create the array's dataset if its id is not yet in the group (or
force_write is set — creating over an existing name raises), then fetch it
and run the append body. -/
def writeOneArray (g : List (String × Dset)) (a : MemArray) (force_write : Bool) :
    Except PyErr (List (String × Dset)) :=
  match (if (assocGet g a.array_id).isNone || force_write then
           match assocGet g a.array_id with
           | some _ => Except.error (PyErr.valueError "name already exists")
           | Option.none => Except.ok (g ++ [(a.array_id, create_dataarray_dset a)])
         else Except.ok g) with
  | Except.error er => Except.error er
  | Except.ok g1 =>
      match assocGet g1 a.array_id with
      | Option.none => Except.error (PyErr.keyError a.array_id)
      | some d =>
          match appendArray d a.data with
          | Except.error er => Except.error er
          | Except.ok d2 => Except.ok (assocSet g1 a.array_id d2)

/-- The write loop over the dataset's arrays. Each iteration first reads
self.arr_group; when that attribute was never assigned (bound = false) the
first iteration raises AttributeError. -/
def writeLoop (bound force_write : Bool) :
    List (String × Dset) → List MemArray → Except PyErr (List (String × Dset))
  | g, [] => Except.ok g
  | g, a :: rest =>
      if bound then
        match writeOneArray g a force_write with
        | Except.error er => Except.error er
        | Except.ok g2 => writeLoop bound force_write g2 rest
      else Except.error (PyErr.attributeError "arr_group")

/-- An open HDF5 container: whether the top-level Data Arrays group exists,
and its member datasets. -/
structure OpenFile where
  hasArrGroup : Bool
  arrGroup : List (String × Dset)
deriving DecidableEq

/-- The HDF5Format instance state that write consults: the data_object
handle (Option.none before the first call) and whether the instance
attribute self.arr_group has ever been assigned. -/
structure Hdf5Fmt where
  data_object : Option OpenFile
  arrGroupBound : Bool
deriving DecidableEq

/-- Embeds HDF5Format.write (hdf5_format.py lines 87-121). If no handle is
held (or force_write), the file is created or reopened from disk (h5py
mode a keeps existing contents; a missing file is created empty). The
Data Arrays group is created — and self.arr_group assigned — only when the
group is absent; when it already exists, self.arr_group keeps whatever
binding the instance had. Then every in-memory array is appended via
writeOneArray. Returns the updated instance state and file contents. -/
def hdf5write (fmt : Hdf5Fmt) (disk : Option OpenFile) (arrays : List MemArray)
    (force_write : Bool) : Except PyErr (Hdf5Fmt × OpenFile) :=
  let file0 : OpenFile :=
    match fmt.data_object, force_write with
    | some f, false => f
    | _, _ =>
        match disk with
        | some f => f
        | Option.none => { hasArrGroup := false, arrGroup := [] }
  let bound : Bool := !file0.hasArrGroup || fmt.arrGroupBound
  match writeLoop bound force_write file0.arrGroup arrays with
  | Except.error er => Except.error er
  | Except.ok g2 =>
      let fileF : OpenFile := { hasArrGroup := true, arrGroup := g2 }
      Except.ok ({ data_object := some fileF, arrGroupBound := bound }, fileF)

/-- The spec's concrete scenario, setpoint array x with declared length 5
and populated length 3. -/
def sx0 : MemArray :=
  { array_id := "x", name := some "x", label := some "x", units := Option.none,
    is_setpoint := true, set_array_ids := [],
    data := [some 0, some 1, some 2, Option.none, Option.none] }

/-- The spec's concrete scenario, dependent array y referencing x. -/
def sy0 : MemArray :=
  { array_id := "y", name := some "y", label := some "y", units := Option.none,
    is_setpoint := false, set_array_ids := ["x"],
    data := [some 10, some 11, some 12, Option.none, Option.none] }

/-- The scenario's x after x[3]=3.0 is appended in memory. -/
def sx1 : MemArray := { sx0 with data := [some 0, some 1, some 2, some 3, Option.none] }

/-- The scenario's y after y[3]=13.0 is appended in memory. -/
def sy1 : MemArray := { sy0 with data := [some 10, some 11, some 12, some 13, Option.none] }

/-- The stored x dataset after the first write call: three rows. -/
def scenDsetX : Dset := { create_dataarray_dset sx0 with rows := [[some 0], [some 1], [some 2]] }

/-- The stored y dataset after the first write call: three rows. -/
def scenDsetY : Dset :=
  { create_dataarray_dset sy0 with rows := [[some 10], [some 11], [some 12]] }

/-- The container contents after the first write call of the scenario. -/
def scenFile1 : OpenFile := { hasArrGroup := true, arrGroup := [("x", scenDsetX), ("y", scenDsetY)] }

/-- The formatter state after the first write call of the scenario. -/
def scenFmt1 : Hdf5Fmt := { data_object := some scenFile1, arrGroupBound := true }

/-- Claim C1 (code bug): on the spec's own scenario, the first write call
persists 3 rows for both arrays, but the second write call after the
populated prefixes grow to 4 does not produce 4-row tables: the code
reshapes the 1-element slice x[3:4] to shape (4, 1)
(hdf5_format.py lines 119-121 reshape to new_datasetshape instead of the
slice's own shape), so the call raises ValueError instead of appending. -/
theorem claim_C1_thm :
    hdf5write { data_object := Option.none, arrGroupBound := false } Option.none
        [sx0, sy0] false = Except.ok (scenFmt1, scenFile1) ∧
    hdf5write scenFmt1 (some scenFile1) [sx1, sy1] false
        = Except.error (PyErr.valueError "cannot reshape") :=
  ⟨rfl, rfl⟩

/-- All five cells still NaN: a dataset whose populated prefix shrank to
zero. -/
def allNan5 : List Cell :=
  [Option.none, Option.none, Option.none, Option.none, Option.none]

/-- Claim C2 (code bug): HDF5Format.write has no new_length <= old_length
guard. A second write call with no newly populated rows (new_dlen =
old_dlen = 3) raises ValueError from reshaping an empty slice to (3, 1)
instead of skipping the array, and a write call whose in-memory populated
count dropped to 0 silently truncates the stored table from 3 rows to 0,
so the stored row count does decrease. -/
theorem claim_C2_thm :
    appendArray scenDsetX sx0.data = Except.error (PyErr.valueError "cannot reshape") ∧
    appendArray scenDsetX allNan5 = Except.ok { scenDsetX with rows := [] } :=
  ⟨rfl, rfl⟩

/-- Claim C4 (code bug): when a fresh formatter instance (data_object =
None, self.arr_group never assigned) writes to a container that already
holds the Data Arrays group, the group-creation branch is skipped and
self.arr_group is left unassigned (hdf5_format.py lines 102-103 have no
else branch), so the first loop access self.arr_group.keys() raises
AttributeError; the append succeeds only when the group was just created
by this instance. -/
theorem claim_C4_thm :
    hdf5write { data_object := Option.none, arrGroupBound := false } (some scenFile1)
        [sx0, sy0] false = Except.error (PyErr.attributeError "arr_group") ∧
    hdf5write { data_object := Option.none, arrGroupBound := false } Option.none
        [sx0, sy0] false = Except.ok (scenFmt1, scenFile1) :=
  ⟨rfl, rfl⟩

/-- Claim C6: _create_dataarray_dset stores the is_setpoint attribute as
exactly the text token of the python bool ("True" or "False"), str_to_bool
maps "True" to true and "False" to false so that the round trip is the
identity on booleans, and every other token raises ValueError — no lenient
coercion or default. -/
theorem claim_C6_thm :
    (∀ a : MemArray,
        (create_dataarray_dset a).attrs.is_setpoint = encodeUtf8 (pyBoolStr a.is_setpoint)) ∧
    (∀ b : Bool, str_to_bool (pyBoolStr b) = Except.ok b) ∧
    (∀ s : String, s ≠ "True" → s ≠ "False" →
        str_to_bool s = Except.error (PyErr.valueError ("Cannot covert " ++ s ++ " to a bool"))) := by
  refine ⟨fun a => rfl, fun b => ?_, fun s h1 h2 => ?_⟩
  · cases b <;> rfl
  · unfold str_to_bool
    rw [if_neg h1, if_neg h2]

/-- Claim C6 witness: the theorem applied to the corrupted token "yes" and
to the round trip at true. -/
theorem claim_C6_witness :
    str_to_bool "yes" = Except.error (PyErr.valueError ("Cannot covert " ++ "yes" ++ " to a bool")) ∧
    str_to_bool (pyBoolStr true) = Except.ok true :=
  ⟨claim_C6_thm.2.2 "yes" (by decide) (by decide), claim_C6_thm.2.1 true⟩

/-- If the h5py resize succeeds it never changes the column count. -/
theorem h5Resize_cols {d : Dset} {n : Nat} {r : Dset}
    (h : h5Resize d n = Except.ok r) : r.cols = d.cols := by
  unfold h5Resize at h
  split at h
  · split at h
    · have := Except.ok.inj h
      rw [← this]
    · exact Except.noConfusion h
  · have := Except.ok.inj h
    rw [← this]

/-- Claim C8: storage is allocated at creation with shape (0, column_count)
where column_count is the cardinality of the unit descriptor and the row
dimension of maxshape is unlimited; a successful append never changes the
column count; and a write whose slice size is inconsistent with the fixed
column count fails with the reshape ValueError. -/
theorem claim_C8_thm :
    (∀ (a : MemArray) (u : List String), a.units = some u →
        (create_dataarray_dset a).rows = [] ∧
        (create_dataarray_dset a).cols = u.length ∧
        (create_dataarray_dset a).maxRows = Option.none) ∧
    (∀ (d : Dset) (x : List Cell) (d2 : Dset),
        appendArray d x = Except.ok d2 → d2.cols = d.cols) ∧
    (∀ (d : Dset) (x : List Cell), d.maxRows = Option.none →
        ((x.drop d.rows.length).take (nonNanCount x - d.rows.length)).length
            ≠ nonNanCount x * d.cols →
        appendArray d x = Except.error (PyErr.valueError "cannot reshape")) := by
  refine ⟨fun a u hu => ⟨rfl, ?_, rfl⟩, fun d x d2 h => ?_, fun d x hmax hne => ?_⟩
  · simp [create_dataarray_dset, effUnits, hu]
  · unfold appendArray at h
    split at h
    · exact Except.noConfusion h
    · rename_i resized hr
      split at h
      · exact Except.noConfusion h
      · split at h
        · have h2 := Except.ok.inj h
          rw [← h2]
          show resized.cols = d.cols
          exact h5Resize_cols hr
        · exact Except.noConfusion h
  · unfold appendArray
    have hres : h5Resize d (nonNanCount x)
        = Except.ok { d with rows := resizeRows d.rows (nonNanCount x) d.cols } := by
      unfold h5Resize
      rw [hmax]
    have hrsh : npReshapeRows ((x.drop d.rows.length).take (nonNanCount x - d.rows.length))
        (nonNanCount x) d.cols = Option.none := by
      unfold npReshapeRows
      rw [if_neg hne]
    simp only [hres, hrsh]

/-- A one-column array used in the column-count witness. -/
def c8arr1 : MemArray :=
  { array_id := "v1", name := Option.none, label := Option.none, units := some ["u"],
    is_setpoint := true, set_array_ids := [], data := [some 7] }

/-- A three-column array used in the column-count witness. -/
def c8arr3 : MemArray :=
  { array_id := "v3", name := Option.none, label := Option.none,
    units := some ["a", "b", "c"], is_setpoint := true, set_array_ids := [],
    data := [some 1] }

/-- The stored table after appending one populated cell to c8arr1's fresh
dataset. -/
def c8d2 : Dset := { create_dataarray_dset c8arr1 with rows := [[some 7]] }

/-- Claim C8 witness: a 3-element unit descriptor yields a (0, 3) table with
unlimited rows, a concrete successful append keeps the column count, and a
1-cell write against the fixed 3 columns fails with the reshape error. -/
theorem claim_C8_witness :
    ((create_dataarray_dset c8arr3).rows = [] ∧
      (create_dataarray_dset c8arr3).cols = 3 ∧
      (create_dataarray_dset c8arr3).maxRows = Option.none) ∧
    c8d2.cols = (create_dataarray_dset c8arr1).cols ∧
    appendArray (create_dataarray_dset c8arr3) [some 1]
        = Except.error (PyErr.valueError "cannot reshape") := by
  refine ⟨claim_C8_thm.1 c8arr3 ["a", "b", "c"] rfl, ?_, ?_⟩
  · exact claim_C8_thm.2.1 (create_dataarray_dset c8arr1) [some 7] c8d2 rfl
  · exact claim_C8_thm.2.2 (create_dataarray_dset c8arr3) [some 1] rfl (by decide)

/-- The names defined at module level in hdf5_format.py: the imports and
the module's own definitions. Neither data_object nor
dict_to_ordered_tuples is among them, and HDF5Format instances never
assign a station attribute. -/
def hdf5ModuleGlobals : List String :=
  ["np", "h5py", "re", "math", "os", "DataArray", "Formatter", "HDF5Format",
   "_encode_to_utf8", "str_to_bool"]

/-- python resolution of a free name against the module globals (the
builtins contain none of the names save_instrument_snapshot needs). -/
def pyGlobalDefined (n : String) : Bool := hdf5ModuleGlobals.contains n

/-- A configuration snapshot: instrument name to parameter name to optional
stringified value (Option.none models a parameter entry without a "value"
key). -/
abbrev Snapshot := List (String × List (String × Option String))

/-- Embeds HDF5Format.save_instrument_snapshot (hdf5_format.py lines
200-222). Its first statement, set_grp = data_object.create_group(...),
reads the free name data_object, which is neither a local, a parameter, a
module-level definition nor a builtin, so every call raises NameError
before the snapshot argument is ever examined; the remaining statements
(which also reference the undefined name dict_to_ordered_tuples and the
never-assigned attribute self.station instead of the snapshot argument)
are unreachable. -/
def save_instrument_snapshot (snapshot : Snapshot) : Except PyErr Unit :=
  if pyGlobalDefined "data_object" then Except.ok ()
  else Except.error (PyErr.nameError "data_object")

/-- Claim C9 (code bug): for every snapshot argument,
save_instrument_snapshot raises NameError on the undefined global
data_object before writing anything, so no per-instrument subgroup or
parameter attribute is ever produced. -/
theorem claim_C9_thm : ∀ snapshot : Snapshot,
    save_instrument_snapshot snapshot = Except.error (PyErr.nameError "data_object") :=
  fun _ => rfl

/-- The length of the longest NaN-free prefix of an in-memory array — the
quantity claim C3 says new_length equals (spec-side definition, for
comparison with nonNanCount). -/
def nanFreePrefixLen (x : List Cell) : Nat :=
  (x.takeWhile (fun c => c.isSome)).length

/-- Whether NaN cells occur only after every populated cell — the
preallocated, front-filled layout the module docstring assumes. -/
def trailingNanOnly (x : List Cell) : Bool :=
  (x.dropWhile (fun c => c.isSome)).all (fun c => c.isNone)

/-- A fresh one-column dataset (absent units descriptor). -/
def c3fresh : Dset :=
  create_dataarray_dset
    { array_id := "m", name := Option.none, label := Option.none,
      units := Option.none, is_setpoint := true, set_array_ids := [], data := [] }

/-- An in-memory array with an interior NaN: populated, NaN, populated. -/
def c3arr : List Cell := [some 1, Option.none, some 2]

/-- Claim C3 counterexample: for the array [1.0, NaN, 2.0] the code's
new_length len(x[~isnan(x)]) is 2 while the longest NaN-free prefix has
length 1, and the write persists two rows — including the NaN cell at row
index 1, a position at the first NaN — so new_length is not the populated
prefix length and positions at or after the first NaN can be persisted. -/
theorem claim_C3_cex :
    nonNanCount c3arr = 2 ∧
    nanFreePrefixLen c3arr = 1 ∧
    appendArray c3fresh c3arr = Except.ok { c3fresh with rows := [[some 1], [Option.none]] } :=
  ⟨rfl, rfl, rfl⟩

/-- The write body of a first write call (empty stored table, one column):
it succeeds and stores, one cell per row, the first nonNanCount x cells of
the array. -/
theorem appendArray_first (attrs : DsetAttrs) (x : List Cell) :
    appendArray ⟨[], 1, Option.none, attrs⟩ x
      = Except.ok ⟨(List.range (nonNanCount x)).map
          (fun i => ((x.take (nonNanCount x)).drop (i * 1)).take 1),
          1, Option.none, attrs⟩ := by
  have hlen : (x.take (nonNanCount x)).length = nonNanCount x * 1 := by
    rw [Nat.mul_one, List.length_take]
    exact Nat.min_eq_left (List.length_filter_le _ _)
  have h2 : npReshapeRows (x.take (nonNanCount x)) (nonNanCount x) 1
      = some ((List.range (nonNanCount x)).map
          (fun i => ((x.take (nonNanCount x)).drop (i * 1)).take 1)) := by
    unfold npReshapeRows
    rw [if_pos hlen]
  have hb : ((List.range (nonNanCount x)).map
      (fun i => ((x.take (nonNanCount x)).drop (i * 1)).take 1)).length
      = nonNanCount x := by
    rw [List.length_map, List.length_range]
  unfold appendArray
  simp only [List.length_nil, Nat.sub_zero, List.drop_zero,
    show h5Resize ⟨[], 1, Option.none, attrs⟩ (nonNanCount x)
      = Except.ok ⟨resizeRows [] (nonNanCount x) 1, 1, Option.none, attrs⟩ from rfl,
    h2, hb, if_pos, List.take_zero, List.nil_append]

/-- Under the front-filled layout, the non-NaN count equals the NaN-free
prefix length. -/
theorem count_eq_prefixLen : ∀ x : List Cell, trailingNanOnly x = true →
    nonNanCount x = nanFreePrefixLen x := by
  intro x
  induction x with
  | nil => intro _; rfl
  | cons c t ih =>
      intro h
      cases c with
      | some q =>
          have ht : trailingNanOnly t = true := by
            unfold trailingNanOnly at h ⊢
            simpa [List.dropWhile_cons] using h
          unfold nonNanCount nanFreePrefixLen at ih ⊢
          simpa [List.filter_cons, List.takeWhile_cons] using ih ht
      | none =>
          have hall : ∀ c ∈ t, c = Option.none := by
            unfold trailingNanOnly at h
            simp [List.dropWhile_cons] at h
            exact h
          unfold nonNanCount nanFreePrefixLen
          simp [List.filter_cons, List.takeWhile_cons]
          exact hall

/-- Taking a list up to the length of its takeWhile prefix yields exactly
that prefix. -/
theorem take_length_takeWhile {α : Type} (p : α → Bool) :
    ∀ l : List α, l.take (l.takeWhile p).length = l.takeWhile p := by
  intro l
  induction l with
  | nil => rfl
  | cons a t ih =>
      by_cases h : p a
      · simp [List.takeWhile_cons, h, ih]
      · simp [List.takeWhile_cons, h]

/-- Claim C3 (amended): for a first write call (empty stored table, one
fixed column), the number of rows persisted equals len(x[~isnan(x)]), the
count of non-NaN cells anywhere in the array; when NaN cells occur only
after every populated cell — the preallocated front-filled layout the
module assumes — this count coincides with the longest NaN-free prefix
length and every persisted cell is populated, but for arrays with an
interior NaN the two differ and NaN positions are persisted. -/
theorem claim_C3_thm (d : Dset) (x : List Cell) (hrows : d.rows = [])
    (hcols : d.cols = 1) (hmax : d.maxRows = Option.none) :
    ∃ d2, appendArray d x = Except.ok d2 ∧
      d2.rows.length = nonNanCount x ∧
      (trailingNanOnly x = true →
        d2.rows.length = nanFreePrefixLen x ∧
        ∀ r ∈ d2.rows, ∀ c ∈ r, c.isSome = true) := by
  obtain ⟨rows, cols, mx, attrs⟩ := d
  dsimp only at hrows hcols hmax
  subst hrows hcols hmax
  refine ⟨_, appendArray_first attrs x, ?_, ?_⟩
  · show ((List.range (nonNanCount x)).map _).length = nonNanCount x
    rw [List.length_map, List.length_range]
  · intro ht
    constructor
    · show ((List.range (nonNanCount x)).map _).length = nanFreePrefixLen x
      rw [List.length_map, List.length_range]
      exact count_eq_prefixLen x ht
    · intro r hr c hc
      obtain ⟨i, hi, rfl⟩ := List.mem_map.mp hr
      have hc2 : c ∈ x.take (nonNanCount x) :=
        List.drop_subset _ _ (List.take_subset _ _ hc)
      rw [count_eq_prefixLen x ht] at hc2
      unfold nanFreePrefixLen at hc2
      rw [take_length_takeWhile] at hc2
      exact List.mem_takeWhile_imp hc2

/-- Claim C3 witness: the amended theorem applied to the front-filled
array [5.0, NaN] against a fresh one-column dataset. -/
theorem claim_C3_witness :
    ∃ d2, appendArray c3fresh [some 5, Option.none] = Except.ok d2 ∧
      d2.rows.length = nanFreePrefixLen [some 5, Option.none] ∧
      ∀ r ∈ d2.rows, ∀ c ∈ r, c.isSome = true := by
  obtain ⟨d2, h1, h2, h3⟩ := claim_C3_thm c3fresh [some 5, Option.none] rfl rfl rfl
  obtain ⟨h4, h5⟩ := h3 (by decide)
  exact ⟨d2, h1, h4, h5⟩

/-- A stored array entry of the Data Arrays group as HDF5Format.read sees
it: five attributes, each Option.none when absent from the file, and the
2-D numeric payload. -/
structure StoredEntry where
  label : Option Utf8Bytes
  name : Option Utf8Bytes
  units : Option Utf8Bytes
  is_setpoint : Option Utf8Bytes
  set_arrays : Option (List Utf8Bytes)
  value : List (List Cell)
deriving DecidableEq

/-- The non-relational part of a reconstructed DataArray: the constructor
fields of the first read pass, including the temporary string-id list
_sa_array_ids. -/
structure RArrBase where
  name : String
  array_id : String
  label : Option String
  units : Option String
  is_setpoint : Bool
  sa_ids : List String
  preset_data : List Cell
deriving DecidableEq

/-- A reconstructed DataArray: the base fields plus set_arrays, the tuple
of references to sibling arrays filled in by the second read pass. -/
inductive RArr where
  | mk (base : RArrBase) (set_arrays : List RArr)

/-- The base fields of a reconstructed array. -/
def RArr.base : RArr → RArrBase
  | RArr.mk b _ => b

/-- The resolved set_arrays tuple of a reconstructed array. -/
def RArr.set_arrays : RArr → List RArr
  | RArr.mk _ s => s

/-- d_array.set_arrays += (s,) (hdf5_format.py line 85). -/
def RArr.appendSA (a : RArr) (s : RArr) : RArr := RArr.mk a.base (a.set_arrays ++ [s])

/-- dat_arr.value[:, 0]: the first column of the stored table, IndexError
on a zero-column row. -/
def pyCol0 : List (List Cell) → Except PyErr (List Cell)
  | [] => Except.ok []
  | r :: rest =>
      match r.head? with
      | Option.none => Except.error PyErr.indexError
      | some c =>
          match pyCol0 rest with
          | Except.error er => Except.error er
          | Except.ok t => Except.ok (c :: t)

/-- Embeds the per-entry body of the first loop of HDF5Format.read
(hdf5_format.py lines 49-78): label, name and units are decoded when
present with defaults None, array_id and None respectively; is_setpoint is
read by direct attribute indexing (KeyError when absent) and parsed by
str_to_bool; set_arrays is read by direct indexing for non-setpoint arrays
(KeyError when absent) and is () for setpoint arrays; preset_data is the
first column of the payload. -/
def readEntry (array_id : String) (e : StoredEntry) : Except PyErr RArrBase :=
  match e.is_setpoint with
  | Option.none => Except.error (PyErr.keyError "is_setpoint")
  | some ispB =>
      match str_to_bool ispB.decode with
      | Except.error er => Except.error er
      | Except.ok isp =>
          match (if isp then Except.ok ([] : List String)
                 else match e.set_arrays with
                   | some l => Except.ok (l.map Utf8Bytes.decode)
                   | Option.none => Except.error (PyErr.keyError "set_arrays")) with
          | Except.error er => Except.error er
          | Except.ok sa =>
              match pyCol0 e.value with
              | Except.error er => Except.error er
              | Except.ok col0 =>
                  Except.ok
                    { name := (match e.name with
                        | some b => b.decode
                        | Option.none => array_id),
                      array_id := array_id,
                      label := e.label.map Utf8Bytes.decode,
                      units := e.units.map Utf8Bytes.decode,
                      is_setpoint := isp,
                      sa_ids := sa,
                      preset_data := col0 }

/-- The first read pass: construct a DataArray per stored entry (set_arrays
still empty, the referenced ids parked in sa_ids) and add it to the
dataset in iteration order. -/
def readPass1 : List (String × StoredEntry) → Except PyErr (List (String × RArr))
  | [] => Except.ok []
  | (array_id, e) :: rest =>
      match readEntry array_id e with
      | Except.error er => Except.error er
      | Except.ok b =>
          match readPass1 rest with
          | Except.error er => Except.error er
          | Except.ok tl => Except.ok ((array_id, RArr.mk b []) :: tl)

/-- One referenced id of the second read pass (hdf5_format.py line 85):
look up the referenced array — KeyError when its id is absent — and append
it to the referencing array's set_arrays tuple. -/
def resolveStep (array_id : String) (ds : List (String × RArr)) (sa_id : String) :
    Except PyErr (List (String × RArr)) :=
  match assocGet ds sa_id with
  | Option.none => Except.error (PyErr.keyError sa_id)
  | some s =>
      match assocGet ds array_id with
      | Option.none => Except.error (PyErr.keyError array_id)
      | some a => Except.ok (assocSet ds array_id (a.appendSA s))

/-- The inner loop of the second read pass over one array's parked ids. -/
def resolveInner (array_id : String) : List (String × RArr) → List String →
    Except PyErr (List (String × RArr))
  | ds, [] => Except.ok ds
  | ds, sa_id :: rest =>
      match resolveStep array_id ds sa_id with
      | Except.error er => Except.error er
      | Except.ok ds2 => resolveInner array_id ds2 rest

/-- The second read pass (hdf5_format.py lines 82-85): for every array of
the dataset in order, resolve each parked string id into a reference to
the corresponding sibling array. -/
def readPass2Go : List (String × RArr) → List String → Except PyErr (List (String × RArr))
  | ds, [] => Except.ok ds
  | ds, array_id :: rest =>
      match assocGet ds array_id with
      | Option.none => Except.error (PyErr.keyError array_id)
      | some a =>
          match resolveInner array_id ds a.base.sa_ids with
          | Except.error er => Except.error er
          | Except.ok ds2 => readPass2Go ds2 rest

/-- The second read pass over the whole dataset. -/
def readPass2 (ds0 : List (String × RArr)) : Except PyErr (List (String × RArr)) :=
  readPass2Go ds0 (ds0.map Prod.fst)

/-- Embeds HDF5Format.read (hdf5_format.py lines 41-85): the first pass
constructs every array with empty set_arrays, the second pass resolves the
parked ids into sibling references. -/
def hdf5read (file : List (String × StoredEntry)) : Except PyErr (List (String × RArr)) :=
  match readPass1 file with
  | Except.error er => Except.error er
  | Except.ok ds0 => readPass2 ds0

/-- Claim C10: read substitutes defaults for the optional attributes
(missing label gives label None, missing name falls back to the array id,
missing units gives units None), but raises KeyError when is_setpoint is
missing, and KeyError when set_arrays is missing on an entry whose
is_setpoint decodes to false. -/
theorem claim_C10_thm (array_id : String) (e : StoredEntry) :
    (∀ b : RArrBase, readEntry array_id e = Except.ok b →
        (e.label = Option.none → b.label = Option.none) ∧
        (e.name = Option.none → b.name = array_id) ∧
        (e.units = Option.none → b.units = Option.none)) ∧
    (e.is_setpoint = Option.none →
        readEntry array_id e = Except.error (PyErr.keyError "is_setpoint")) ∧
    (∀ bts : Utf8Bytes, e.is_setpoint = some bts →
        str_to_bool bts.decode = Except.ok false → e.set_arrays = Option.none →
        readEntry array_id e = Except.error (PyErr.keyError "set_arrays")) := by
  refine ⟨?_, ?_, ?_⟩
  · intro b hb
    unfold readEntry at hb
    split at hb
    · exact Except.noConfusion hb
    · split at hb
      · exact Except.noConfusion hb
      · split at hb
        · exact Except.noConfusion hb
        · split at hb
          · exact Except.noConfusion hb
          · have hb2 := Except.ok.inj hb
            subst hb2
            refine ⟨?_, ?_, ?_⟩
            · intro hl
              show e.label.map Utf8Bytes.decode = Option.none
              rw [hl]
              rfl
            · intro hn
              show (match e.name with
                | some b => b.decode
                | Option.none => array_id) = array_id
              rw [hn]
            · intro hu
              show e.units.map Utf8Bytes.decode = Option.none
              rw [hu]
              rfl
  · intro h0
    unfold readEntry
    rw [h0]
  · intro bts h1 h2 h3
    unfold readEntry
    simp [h1, h2, h3]

/-- A stored entry with every optional attribute absent and is_setpoint
"True". -/
def c10e1 : StoredEntry :=
  { label := Option.none, name := Option.none, units := Option.none,
    is_setpoint := some (encodeUtf8 "True"), set_arrays := Option.none,
    value := [[some 1]] }

/-- The array read back from c10e1 under id a1. -/
def c10b1 : RArrBase :=
  { name := "a1", array_id := "a1", label := Option.none, units := Option.none,
    is_setpoint := true, sa_ids := [], preset_data := [some 1] }

/-- A stored entry with no is_setpoint attribute. -/
def c10e2 : StoredEntry :=
  { label := some (encodeUtf8 "l"), name := some (encodeUtf8 "n"),
    units := some (encodeUtf8 "u"), is_setpoint := Option.none,
    set_arrays := Option.none, value := [[some 1]] }

/-- A stored entry with is_setpoint "False" but no set_arrays attribute. -/
def c10e3 : StoredEntry := { c10e2 with is_setpoint := some (encodeUtf8 "False") }

/-- Claim C10 witness: the theorem applied to the three concrete entries. -/
theorem claim_C10_witness :
    (readEntry "a1" c10e1 = Except.ok c10b1 ∧ c10b1.label = Option.none ∧
      c10b1.name = "a1" ∧ c10b1.units = Option.none) ∧
    readEntry "a1" c10e2 = Except.error (PyErr.keyError "is_setpoint") ∧
    readEntry "a1" c10e3 = Except.error (PyErr.keyError "set_arrays") := by
  refine ⟨⟨rfl, ?_, ?_, ?_⟩, ?_, ?_⟩
  · exact ((claim_C10_thm "a1" c10e1).1 c10b1 rfl).1 rfl
  · exact ((claim_C10_thm "a1" c10e1).1 c10b1 rfl).2.1 rfl
  · exact ((claim_C10_thm "a1" c10e1).1 c10b1 rfl).2.2 rfl
  · exact (claim_C10_thm "a1" c10e2).2.1 rfl
  · exact (claim_C10_thm "a1" c10e3).2.2 (encodeUtf8 "False") rfl rfl rfl

/-- Eta for reconstructed arrays. -/
theorem RArr.eta (a : RArr) : RArr.mk a.base a.set_arrays = a := by
  cases a
  rfl

/-- assocSet keeps the key sequence. -/
theorem assocSet_keys {α : Type} (g : List (String × α)) (k : String) (v : α) :
    (assocSet g k v).map Prod.fst = g.map Prod.fst := by
  induction g with
  | nil => rfl
  | cons p t ih =>
      by_cases h : p.1 = k
      · simp [assocSet, h, ih]
      · simp [assocSet, h, ih]

/-- A key is present exactly when assocGet finds a value for it. -/
theorem assocGet_isSome_iff {α : Type} (g : List (String × α)) (k : String) :
    (assocGet g k).isSome = true ↔ k ∈ g.map Prod.fst := by
  induction g with
  | nil => simp [assocGet]
  | cons p t ih =>
      unfold assocGet
      by_cases h : p.1 = k
      · simp [h]
      · simp [h, ih, Ne.symm h]

/-- assocSet on a present key stores the new value. -/
theorem assocGet_assocSet_same {α : Type} {g : List (String × α)} {k : String}
    (v : α) (h : (assocGet g k).isSome = true) :
    assocGet (assocSet g k v) k = some v := by
  induction g with
  | nil => simp [assocGet] at h
  | cons p t ih =>
      obtain ⟨pk, pv⟩ := p
      by_cases hp : pk = k
      · subst hp
        simp [assocSet, assocGet]
      · have h2 : (assocGet t k).isSome = true := by
          simpa [assocGet, hp] using h
        simp [assocSet, assocGet, hp, ih h2]

/-- assocSet leaves other keys untouched. -/
theorem assocGet_assocSet_ne {α : Type} (g : List (String × α)) {k k2 : String}
    (v : α) (h : k2 ≠ k) : assocGet (assocSet g k v) k2 = assocGet g k2 := by
  induction g with
  | nil => rfl
  | cons p t ih =>
      obtain ⟨pk, pv⟩ := p
      show assocGet ((if (pk, pv).1 = k then (k, v) else (pk, pv)) :: assocSet t k v) k2
          = assocGet ((pk, pv) :: t) k2
      by_cases hp : pk = k
      · rw [if_pos hp]
        show (if k = k2 then some v else assocGet (assocSet t k v) k2)
            = (if pk = k2 then some pv else assocGet t k2)
        have h1 : ¬(k = k2) := fun he => h he.symm
        have h2 : ¬(pk = k2) := by
          rw [hp]
          exact h1
        rw [if_neg h1, if_neg h2, ih]
      · rw [if_neg hp]
        show (if pk = k2 then some pv else assocGet (assocSet t k v) k2)
            = (if pk = k2 then some pv else assocGet t k2)
        by_cases hq : pk = k2
        · rw [if_pos hq, if_pos hq]
        · rw [if_neg hq, if_neg hq, ih]

/-- A found binding is a member of the list. -/
theorem assocGet_mem {α : Type} {g : List (String × α)} {k : String} {a : α}
    (h : assocGet g k = some a) : (k, a) ∈ g := by
  induction g with
  | nil => exact absurd h (by simp [assocGet])
  | cons p t ih =>
      obtain ⟨pk, pv⟩ := p
      by_cases hp : pk = k
      · have h2 : some pv = some a := by simpa [assocGet, hp] using h
        have h3 := Option.some.inj h2
        subst hp
        subst h3
        exact List.mem_cons_self _ _
      · have h2 : assocGet t k = some a := by simpa [assocGet, hp] using h
        exact List.mem_cons_of_mem _ (ih h2)

/-- With duplicate-free keys, membership determines the lookup result. -/
theorem mem_assocGet_of_nodup {α : Type} {g : List (String × α)}
    (hnd : (g.map Prod.fst).Nodup) {k : String} {a : α} (h : (k, a) ∈ g) :
    assocGet g k = some a := by
  induction g with
  | nil => cases h
  | cons p t ih =>
      rw [List.map_cons, List.nodup_cons] at hnd
      cases h with
      | head => simp [assocGet]
      | tail _ hm =>
          have hk : k ∈ t.map Prod.fst := List.mem_map.mpr ⟨(k, a), hm, rfl⟩
          have hp : p.1 ≠ k := fun he => hnd.1 (he ▸ hk)
          unfold assocGet
          rw [if_neg hp]
          exact ih hnd.2 hm

/-- The first read pass keeps the stored key sequence. -/
theorem readPass1_keys : ∀ {file : List (String × StoredEntry)}
    {ds0 : List (String × RArr)}, readPass1 file = Except.ok ds0 →
    ds0.map Prod.fst = file.map Prod.fst := by
  intro file
  induction file with
  | nil =>
      intro ds0 h
      have := Except.ok.inj h
      rw [← this]
      rfl
  | cons p t ih =>
      intro ds0 h
      obtain ⟨array_id, e⟩ := p
      unfold readPass1 at h
      split at h
      · exact Except.noConfusion h
      · split at h
        · exact Except.noConfusion h
        · rename_i tl htl
          have := Except.ok.inj h
          rw [← this, List.map_cons, List.map_cons, ih htl]

/-- Every array produced by the first read pass carries its own key as
array_id and an empty set_arrays tuple. -/
theorem readPass1_fresh : ∀ {file : List (String × StoredEntry)}
    {ds0 : List (String × RArr)}, readPass1 file = Except.ok ds0 →
    ∀ k a, assocGet ds0 k = some a → a.base.array_id = k ∧ a.set_arrays = [] := by
  intro file
  induction file with
  | nil =>
      intro ds0 h k a hk
      have := Except.ok.inj h
      rw [← this] at hk
      exact absurd hk (by simp [assocGet])
  | cons p t ih =>
      intro ds0 h k a hk
      obtain ⟨array_id, e⟩ := p
      unfold readPass1 at h
      split at h
      · exact Except.noConfusion h
      · rename_i b hb
        split at h
        · exact Except.noConfusion h
        · rename_i tl htl
          have := Except.ok.inj h
          rw [← this] at hk
          unfold assocGet at hk
          by_cases hp : array_id = k
          · rw [if_pos hp] at hk
            have ha := Option.some.inj hk
            constructor
            · rw [← ha]
              show b.array_id = k
              rw [← hp]
              unfold readEntry at hb
              split at hb
              · exact Except.noConfusion hb
              · split at hb
                · exact Except.noConfusion hb
                · split at hb
                  · exact Except.noConfusion hb
                  · split at hb
                    · exact Except.noConfusion hb
                    · have := Except.ok.inj hb
                      rw [← this]
            · rw [← ha]
              rfl
          · rw [if_neg hp] at hk
            exact ih htl k a hk

/-- Relates an intermediate pass-2 state to the pass-1 output ds0: the key
sequence and every binding's base fields are unchanged (pass 2 only ever
extends set_arrays tuples). -/
def PassInv (ds0 ds : List (String × RArr)) : Prop :=
  ds.map Prod.fst = ds0.map Prod.fst ∧
  ∀ k, (assocGet ds k).map RArr.base = (assocGet ds0 k).map RArr.base

/-- Every stored binding carries its own key as array_id. -/
def IdKey (ds : List (String × RArr)) : Prop :=
  ∀ k a, assocGet ds k = some a → a.base.array_id = k

/-- The binding at key k has fully resolved references: its set_arrays
tuple lists, in order, arrays whose ids are exactly the parked sa_ids and
whose base fields are those of the pass-1 dataset ds0. -/
def Resolved (ds0 ds : List (String × RArr)) (k : String) : Prop :=
  ∀ a, assocGet ds k = some a →
    a.set_arrays.map (fun s => s.base.array_id) = a.base.sa_ids ∧
    ∀ s ∈ a.set_arrays, (assocGet ds0 s.base.array_id).map RArr.base = some s.base

/-- Successful inner resolution: the state keeps PassInv, every other key
is untouched, and the resolving array's set_arrays tuple grows by exactly
one reference per parked id, each base-identical to the pass-1 array of
that id. -/
theorem resolveInner_ok {ds0 : List (String × RArr)} (hId : IdKey ds0) (aid : String) :
    ∀ (sids : List String) (ds : List (String × RArr)) (ab : RArrBase) (asa : List RArr),
      assocGet ds aid = some (RArr.mk ab asa) → PassInv ds0 ds →
      ∀ ds2, resolveInner aid ds sids = Except.ok ds2 →
      PassInv ds0 ds2 ∧
      (∀ k, k ≠ aid → assocGet ds2 k = assocGet ds k) ∧
      ∃ app : List RArr,
        assocGet ds2 aid = some (RArr.mk ab (asa ++ app)) ∧
        app.map (fun s => s.base.array_id) = sids ∧
        ∀ s ∈ app, (assocGet ds0 s.base.array_id).map RArr.base = some s.base := by
  intro sids
  induction sids with
  | nil =>
      intro ds ab asa ha hInv ds2 h
      have he := Except.ok.inj h
      subst he
      refine ⟨hInv, fun k _ => rfl, [], ?_, rfl, ?_⟩
      · rw [List.append_nil]
        exact ha
      · intro s hs
        cases hs
  | cons sid rest ih =>
      intro ds ab asa ha hInv ds2 h
      unfold resolveInner at h
      split at h
      · exact Except.noConfusion h
      · rename_i ds1 hstep
        unfold resolveStep at hstep
        split at hstep
        · exact Except.noConfusion hstep
        · rename_i s hs
          split at hstep
          · exact Except.noConfusion hstep
          · rename_i a2 ha2
            have haa : a2 = RArr.mk ab asa := by
              have h4 : some a2 = some (RArr.mk ab asa) := by
                rw [← ha2, ha]
              exact Option.some.inj h4
            have hds1 : ds1 = assocSet ds aid (RArr.mk ab (asa ++ [s])) := by
              have h3 := Except.ok.inj hstep
              rw [← h3, haa]
              rfl
            have hsome : (assocGet ds aid).isSome = true := by
              rw [ha]
              rfl
            have hget1 : assocGet ds1 aid = some (RArr.mk ab (asa ++ [s])) := by
              rw [hds1]
              exact assocGet_assocSet_same _ hsome
            have hInv1 : PassInv ds0 ds1 := by
              constructor
              · rw [hds1, assocSet_keys]
                exact hInv.1
              · intro k
                by_cases hk : k = aid
                · subst hk
                  rw [hget1]
                  have h5 := hInv.2 k
                  rw [ha] at h5
                  rw [← h5]
                  rfl
                · rw [hds1, assocGet_assocSet_ne _ _ hk]
                  exact hInv.2 k
            have hsbase : (assocGet ds0 sid).map RArr.base = some s.base := by
              have h6 := hInv.2 sid
              rw [hs] at h6
              exact h6.symm
            have hsid : s.base.array_id = sid := by
              cases h0 : assocGet ds0 sid with
              | none =>
                  rw [h0] at hsbase
                  exact Option.noConfusion hsbase
              | some s0 =>
                  rw [h0] at hsbase
                  have h7 : s0.base = s.base := Option.some.inj hsbase
                  rw [← h7]
                  exact hId sid s0 h0
            have ihr := ih ds1 ab (asa ++ [s]) hget1 hInv1 ds2 h
            obtain ⟨hInv2, hne2, app1, hget2, hmap1, hbase1⟩ := ihr
            refine ⟨hInv2, ?_, s :: app1, ?_, ?_, ?_⟩
            · intro k hk
              rw [hne2 k hk, hds1, assocGet_assocSet_ne _ _ hk]
            · rw [hget2, List.append_assoc, List.singleton_append]
            · show (s :: app1).map (fun s => s.base.array_id) = sid :: rest
              rw [List.map_cons, hmap1, hsid]
            · intro s2 hs2
              cases hs2 with
              | head =>
                  rw [hsid]
                  exact hsbase
              | tail _ hmem => exact hbase1 s2 hmem

/-- Successful outer pass: starting from a state whose pending arrays still
have empty set_arrays tuples and whose finished arrays are resolved, a
successful readPass2Go leaves every array resolved and keeps PassInv. -/
theorem readPass2Go_ok_props {ds0 : List (String × RArr)} (hId : IdKey ds0) :
    ∀ (ids : List String) (ds : List (String × RArr)), PassInv ds0 ds → ids.Nodup →
      (∀ k ∈ ids, ∀ b sa, assocGet ds k = some (RArr.mk b sa) → sa = []) →
      (∀ k, k ∉ ids → Resolved ds0 ds k) →
      ∀ ds2, readPass2Go ds ids = Except.ok ds2 →
      PassInv ds0 ds2 ∧ ∀ k, Resolved ds0 ds2 k := by
  intro ids
  induction ids with
  | nil =>
      intro ds hInv _ _ hres ds2 h
      have he := Except.ok.inj h
      subst he
      exact ⟨hInv, fun k => hres k (List.not_mem_nil k)⟩
  | cons aid rest ih =>
      intro ds hInv hnd hfresh hres ds2 h
      unfold readPass2Go at h
      split at h
      · exact Except.noConfusion h
      · rename_i a hga
        split at h
        · exact Except.noConfusion h
        · rename_i ds1 hinner
          obtain ⟨ab, asa⟩ := a
          have hsa : asa = [] := hfresh aid (List.mem_cons_self _ _) ab asa hga
          subst hsa
          have hri := resolveInner_ok hId aid ab.sa_ids ds ab [] hga hInv ds1 hinner
          obtain ⟨hInv1, hne1, app, hget1, hmap, hbase⟩ := hri
          have haidrest : aid ∉ rest := (List.nodup_cons.mp hnd).1
          have hndrest : rest.Nodup := (List.nodup_cons.mp hnd).2
          refine ih ds1 hInv1 hndrest ?_ ?_ ds2 h
          · intro k hk b2 sa2 hg2
            have hkaid : k ≠ aid := fun he => haidrest (he ▸ hk)
            rw [hne1 k hkaid] at hg2
            exact hfresh k (List.mem_cons_of_mem _ hk) b2 sa2 hg2
          · intro k hk
            by_cases hkaid : k = aid
            · subst hkaid
              intro a2 hg2
              rw [hget1] at hg2
              have he2 := Option.some.inj hg2
              rw [← he2]
              constructor
              · show (([] : List RArr) ++ app).map (fun s => s.base.array_id) = ab.sa_ids
                rw [List.nil_append]
                exact hmap
              · show ∀ s ∈ (([] : List RArr) ++ app),
                    (assocGet ds0 s.base.array_id).map RArr.base = some s.base
                rw [List.nil_append]
                exact hbase
            · have hknotin : k ∉ aid :: rest := by
                intro hmem
                cases hmem with
                | head => exact hkaid rfl
                | tail _ hm => exact hk hm
              intro a2 hg2
              rw [hne1 k hkaid] at hg2
              exact hres k hknotin a2 hg2

/-- resolveStep either succeeds or raises a KeyError. -/
theorem resolveStep_shape (aid : String) (ds : List (String × RArr)) (sid : String) :
    (∃ ds2, resolveStep aid ds sid = Except.ok ds2) ∨
    (∃ s, resolveStep aid ds sid = Except.error (PyErr.keyError s)) := by
  unfold resolveStep
  cases assocGet ds sid with
  | none => exact Or.inr ⟨sid, rfl⟩
  | some s =>
      cases assocGet ds aid with
      | none => exact Or.inr ⟨aid, rfl⟩
      | some a => exact Or.inl ⟨_, rfl⟩

/-- resolveInner either succeeds or raises a KeyError. -/
theorem resolveInner_shape (aid : String) :
    ∀ (sids : List String) (ds : List (String × RArr)),
    (∃ ds2, resolveInner aid ds sids = Except.ok ds2) ∨
    (∃ s, resolveInner aid ds sids = Except.error (PyErr.keyError s)) := by
  intro sids
  induction sids with
  | nil =>
      intro ds
      exact Or.inl ⟨ds, rfl⟩
  | cons sid rest ih =>
      intro ds
      cases resolveStep_shape aid ds sid with
      | inl hok =>
          obtain ⟨ds1, h1⟩ := hok
          have hstep : resolveInner aid ds (sid :: rest) = resolveInner aid ds1 rest := by
            simp only [resolveInner, h1]
          rw [hstep]
          exact ih ds1
      | inr her =>
          obtain ⟨s, h1⟩ := her
          right
          refine ⟨s, ?_⟩
          simp only [resolveInner, h1]

/-- readPass2Go either succeeds or raises a KeyError. -/
theorem readPass2Go_shape :
    ∀ (ids : List String) (ds : List (String × RArr)),
    (∃ ds2, readPass2Go ds ids = Except.ok ds2) ∨
    (∃ s, readPass2Go ds ids = Except.error (PyErr.keyError s)) := by
  intro ids
  induction ids with
  | nil =>
      intro ds
      exact Or.inl ⟨ds, rfl⟩
  | cons aid rest ih =>
      intro ds
      cases hga : assocGet ds aid with
      | none =>
          right
          refine ⟨aid, ?_⟩
          simp only [readPass2Go, hga]
      | some a =>
          cases resolveInner_shape aid a.base.sa_ids ds with
          | inl hok =>
              obtain ⟨ds1, h1⟩ := hok
              have hstep : readPass2Go ds (aid :: rest) = readPass2Go ds1 rest := by
                simp only [readPass2Go, hga, h1]
              rw [hstep]
              exact ih ds1
          | inr her =>
              obtain ⟨s, h1⟩ := her
              right
              refine ⟨s, ?_⟩
              simp only [readPass2Go, hga, h1]

/-- When the resolving array and every referenced id are present,
resolveInner succeeds and keeps the key sequence. -/
theorem resolveInner_total (aid : String) :
    ∀ (sids : List String) (ds : List (String × RArr)),
      aid ∈ ds.map Prod.fst → (∀ sid ∈ sids, sid ∈ ds.map Prod.fst) →
      ∃ ds2, resolveInner aid ds sids = Except.ok ds2 ∧
        ds2.map Prod.fst = ds.map Prod.fst := by
  intro sids
  induction sids with
  | nil =>
      intro ds _ _
      exact ⟨ds, rfl, rfl⟩
  | cons sid rest ih =>
      intro ds haid hall
      have hsid : (assocGet ds sid).isSome = true :=
        (assocGet_isSome_iff ds sid).mpr (hall sid (List.mem_cons_self _ _))
      cases hgs : assocGet ds sid with
      | none =>
          rw [hgs] at hsid
          cases hsid
      | some s =>
          have haid2 : (assocGet ds aid).isSome = true :=
            (assocGet_isSome_iff ds aid).mpr haid
          cases hga : assocGet ds aid with
          | none =>
              rw [hga] at haid2
              cases haid2
          | some a =>
              have hkeys : (assocSet ds aid (a.appendSA s)).map Prod.fst = ds.map Prod.fst :=
                assocSet_keys ds aid (a.appendSA s)
              obtain ⟨ds2, h2, hk2⟩ := ih (assocSet ds aid (a.appendSA s))
                (by rw [hkeys]; exact haid)
                (fun sid2 hm => by rw [hkeys]; exact hall sid2 (List.mem_cons_of_mem _ hm))
              refine ⟨ds2, ?_, by rw [hk2, hkeys]⟩
              have hstep : resolveInner aid ds (sid :: rest)
                  = resolveInner aid (assocSet ds aid (a.appendSA s)) rest := by
                simp only [resolveInner, resolveStep, hgs, hga]
              rw [hstep]
              exact h2

/-- When every referenced id of every array exists among the stored keys,
the whole second pass succeeds. -/
theorem readPass2Go_total {ds0 : List (String × RArr)} (hId : IdKey ds0) :
    ∀ (ids : List String) (ds : List (String × RArr)), PassInv ds0 ds →
      (∀ k ∈ ids, k ∈ ds0.map Prod.fst) →
      (∀ k a0, assocGet ds0 k = some a0 → ∀ sid ∈ a0.base.sa_ids, sid ∈ ds0.map Prod.fst) →
      ∃ ds2, readPass2Go ds ids = Except.ok ds2 := by
  intro ids
  induction ids with
  | nil =>
      intro ds _ _ _
      exact ⟨ds, rfl⟩
  | cons aid rest ih =>
      intro ds hInv hmem hrefs
      have haidds : aid ∈ ds.map Prod.fst := by
        rw [hInv.1]
        exact hmem aid (List.mem_cons_self _ _)
      have haid2 : (assocGet ds aid).isSome = true :=
        (assocGet_isSome_iff ds aid).mpr haidds
      cases hga : assocGet ds aid with
      | none =>
          rw [hga] at haid2
          cases haid2
      | some a =>
          have hbase : (assocGet ds0 aid).map RArr.base = some a.base := by
            have h6 := hInv.2 aid
            rw [hga] at h6
            exact h6.symm
          obtain ⟨a0, hga0, hba⟩ : ∃ a0, assocGet ds0 aid = some a0 ∧ a0.base = a.base := by
            cases h0 : assocGet ds0 aid with
            | none =>
                rw [h0] at hbase
                exact Option.noConfusion hbase
            | some a0 =>
                rw [h0] at hbase
                exact ⟨a0, rfl, Option.some.inj hbase⟩
          have hsids : ∀ sid ∈ a.base.sa_ids, sid ∈ ds.map Prod.fst := by
            intro sid hm
            rw [hInv.1]
            refine hrefs aid a0 hga0 sid ?_
            rw [hba]
            exact hm
          obtain ⟨ds1, h1, _⟩ := resolveInner_total aid a.base.sa_ids ds haidds hsids
          obtain ⟨ab, asa⟩ := a
          have hri := resolveInner_ok hId aid ab.sa_ids ds ab asa hga hInv ds1 h1
          obtain ⟨ds2, h2⟩ := ih ds1 hri.1 (fun k hk => hmem k (List.mem_cons_of_mem _ hk)) hrefs
          refine ⟨ds2, ?_⟩
          have hstep : readPass2Go ds (aid :: rest) = readPass2Go ds1 rest := by
            simp only [readPass2Go, hga, h1]
          rw [hstep]
          exact h2

/-- A successful second pass implies that every id referenced by a
processed array exists among the stored keys. -/
theorem readPass2Go_ok_refs {ds0 : List (String × RArr)} (hId : IdKey ds0) :
    ∀ (ids : List String) (ds : List (String × RArr)), PassInv ds0 ds →
      ∀ ds2, readPass2Go ds ids = Except.ok ds2 →
      ∀ aid ∈ ids, ∀ a0, assocGet ds0 aid = some a0 →
        ∀ sid ∈ a0.base.sa_ids, sid ∈ ds0.map Prod.fst := by
  intro ids
  induction ids with
  | nil =>
      intro ds _ ds2 _ aid hm
      cases hm
  | cons aid2 rest ih =>
      intro ds hInv ds2 h aid hm a0 hga0 sid hsid
      unfold readPass2Go at h
      split at h
      · exact Except.noConfusion h
      · rename_i a hga
        split at h
        · exact Except.noConfusion h
        · rename_i ds1 hinner
          obtain ⟨ab, asa⟩ := a
          have hri := resolveInner_ok hId aid2 ab.sa_ids ds ab asa hga hInv ds1 hinner
          obtain ⟨hInv1, _, app, _, hmap, hbase⟩ := hri
          cases hm with
          | head =>
              have h6 := hInv.2 aid2
              rw [hga, hga0] at h6
              have h6b : some (RArr.mk ab asa).base = some a0.base := h6
              have hba : ab = a0.base := Option.some.inj h6b
              have hsid2 : sid ∈ app.map (fun s => s.base.array_id) := by
                rw [hmap, hba]
                exact hsid
              obtain ⟨s, hsapp, hseq⟩ := List.mem_map.mp hsid2
              have hb := hbase s hsapp
              rw [hseq] at hb
              rw [← assocGet_isSome_iff]
              cases h0 : assocGet ds0 sid with
              | none =>
                  rw [h0] at hb
                  exact Option.noConfusion hb
              | some _ => rfl
          | tail _ hm2 =>
              exact ih ds1 hInv1 ds2 h aid hm2 a0 hga0 sid hsid

/-- Claim C5: for a stored file with duplicate-free ids whose first-pass
read succeeds, (i) whenever read succeeds, every reconstructed array's
set_arrays holds, in stored order, sibling array objects of the
reconstructed dataset — each entry is an array value whose id matches the
parked id and whose base fields equal those of the sibling found under
that id, never a bare string id; (ii) read succeeds whenever every
referenced id exists among the stored arrays; (iii) when some referenced
id is absent, read fails with a KeyError. -/
theorem claim_C5_thm (file : List (String × StoredEntry)) (ds0 : List (String × RArr))
    (h0 : readPass1 file = Except.ok ds0) (hnd : (file.map Prod.fst).Nodup) :
    (∀ ds, hdf5read file = Except.ok ds →
        ∀ k a, assocGet ds k = some a →
          a.set_arrays.map (fun s => s.base.array_id) = a.base.sa_ids ∧
          ∀ s ∈ a.set_arrays, ∃ a2, assocGet ds s.base.array_id = some a2 ∧
            a2.base = s.base) ∧
    ((∀ p ∈ ds0, ∀ sid ∈ p.2.base.sa_ids, (assocGet ds0 sid).isSome = true) →
        ∃ ds, hdf5read file = Except.ok ds) ∧
    ((∃ p ∈ ds0, ∃ sid ∈ p.2.base.sa_ids, assocGet ds0 sid = Option.none) →
        ∃ sid, hdf5read file = Except.error (PyErr.keyError sid)) := by
  have hkeys0 : ds0.map Prod.fst = file.map Prod.fst := readPass1_keys h0
  have hnd0 : (ds0.map Prod.fst).Nodup := by
    rw [hkeys0]
    exact hnd
  have hId : IdKey ds0 := fun k a ha => (readPass1_fresh h0 k a ha).1
  have hfresh0 : ∀ k b sa, assocGet ds0 k = some (RArr.mk b sa) → sa = [] := by
    intro k b sa ha
    exact (readPass1_fresh h0 k _ ha).2
  have hInv0 : PassInv ds0 ds0 := ⟨rfl, fun k => rfl⟩
  have hread : hdf5read file = readPass2Go ds0 (ds0.map Prod.fst) := by
    unfold hdf5read readPass2
    rw [h0]
  refine ⟨?_, ?_, ?_⟩
  · intro ds h k a ha
    rw [hread] at h
    have hprops := readPass2Go_ok_props hId (ds0.map Prod.fst) ds0 hInv0 hnd0
      (fun k _ b sa hg => hfresh0 k b sa hg)
      (fun k hk => by
        intro a2 ha2
        exfalso
        have := (assocGet_isSome_iff ds0 k).mp (by rw [ha2]; rfl)
        exact hk this)
      ds h
    obtain ⟨hInvF, hresF⟩ := hprops
    obtain ⟨hmap, hbases⟩ := hresF k a ha
    refine ⟨hmap, ?_⟩
    intro s hsa
    have hb := hbases s hsa
    have hb2 := hInvF.2 s.base.array_id
    rw [hb] at hb2
    cases h2 : assocGet ds s.base.array_id with
    | none =>
        rw [h2] at hb2
        exact Option.noConfusion hb2
    | some a2 =>
        rw [h2] at hb2
        exact ⟨a2, rfl, Option.some.inj hb2⟩
  · intro hpres
    rw [hread]
    refine readPass2Go_total hId (ds0.map Prod.fst) ds0 hInv0 (fun k hk => hk) ?_
    intro k a0 hga0 sid hs
    have hp := hpres (k, a0) (assocGet_mem hga0) sid hs
    exact (assocGet_isSome_iff ds0 sid).mp hp
  · intro hmiss
    obtain ⟨p, hp, sid, hsid, hnone⟩ := hmiss
    cases readPass2Go_shape (ds0.map Prod.fst) ds0 with
    | inr herr =>
        obtain ⟨s, hs⟩ := herr
        refine ⟨s, ?_⟩
        rw [hread]
        exact hs
    | inl hok =>
        obtain ⟨ds2, hok2⟩ := hok
        exfalso
        have hga0 : assocGet ds0 p.1 = some p.2 := mem_assocGet_of_nodup hnd0 hp
        have hin := readPass2Go_ok_refs hId (ds0.map Prod.fst) ds0 hInv0 ds2 hok2
          p.1 (List.mem_map.mpr ⟨p, hp, rfl⟩) p.2 hga0 sid hsid
        have hsome := (assocGet_isSome_iff ds0 sid).mpr hin
        rw [hnone] at hsome
        cases hsome

/-- The stored setpoint entry x of the round-trip example. -/
def demoEntryX : StoredEntry :=
  { label := some (encodeUtf8 "x"), name := some (encodeUtf8 "x"), units := Option.none,
    is_setpoint := some (encodeUtf8 "True"), set_arrays := Option.none,
    value := [[some 0], [some 1], [some 2]] }

/-- The stored dependent entry y referencing x. -/
def demoEntryY : StoredEntry :=
  { label := some (encodeUtf8 "y"), name := some (encodeUtf8 "y"), units := Option.none,
    is_setpoint := some (encodeUtf8 "False"), set_arrays := some [encodeUtf8 "x"],
    value := [[some 10], [some 11], [some 12]] }

/-- The round-trip example file: setpoint x and y depending on x. -/
def demoFile : List (String × StoredEntry) := [("x", demoEntryX), ("y", demoEntryY)]

/-- The pass-1 output for demoFile. -/
def demoDs0 : List (String × RArr) :=
  [("x", RArr.mk
      { name := "x", array_id := "x", label := some "x", units := Option.none,
        is_setpoint := true, sa_ids := [], preset_data := [some 0, some 1, some 2] } []),
   ("y", RArr.mk
      { name := "y", array_id := "y", label := some "y", units := Option.none,
        is_setpoint := false, sa_ids := ["x"], preset_data := [some 10, some 11, some 12] } [])]

/-- Claim C5 witness: on the example file the theorem yields a successful
read whose resolved set_arrays entries are base-identical sibling arrays. -/
theorem claim_C5_witness :
    (∃ ds, hdf5read demoFile = Except.ok ds) ∧
    (∀ ds, hdf5read demoFile = Except.ok ds →
        ∀ k a, assocGet ds k = some a →
          a.set_arrays.map (fun s => s.base.array_id) = a.base.sa_ids ∧
          ∀ s ∈ a.set_arrays, ∃ a2, assocGet ds s.base.array_id = some a2 ∧
            a2.base = s.base) := by
  have h := claim_C5_thm demoFile demoDs0 rfl (by decide)
  exact ⟨h.2.1 (by decide), h.1⟩
